import Mathlib

/-!
Verification of the state-history and object-association engine of the
canvas drawing application (src/script.js).

The development shallowly embeds the `HistoryModule` class
(src/script.js lines 43-152):

* the history ledger state (`history` array, `currentIndex`, `limit`) and
  its three operations `enregistrerEtat` (record), `annuler` (undo) and
  `retablir` (redo);
* the button-affordance predicates derived from `updateButtons`
  (lines 122-129);
* the association rebuilder `reestablishAssociations` (lines 134-151)
  over a model of the post-deserialization canvas.

Snapshots are opaque to the ledger (the source stores JSON strings), so the
ledger is parameterized by an arbitrary snapshot type `σ`.  JavaScript
numbers used as indices are modelled as `Int` (the source initializes
`currentIndex` to `-1`); list lengths are coerced where the source compares
them with the index.
-/

namespace Canevas

/-- State of the `HistoryModule` class (src/script.js lines 49-60):
`this.history = []`, `this.currentIndex = -1`, `this.limit = limit`.
The canvas itself is not part of the ledger state; `loadState` only reads
the ledger (see `annulerLoads` / `retablirLoads`). -/
structure HistoryModule (σ : Type) where
  history : List σ
  currentIndex : Int
  limit : Nat
deriving DecidableEq

/-- Constructor state (src/script.js lines 49-60): empty history, index -1. -/
def HistoryModule.init (σ : Type) (limit : Nat) : HistoryModule σ :=
  ⟨[], -1, limit⟩

/-- Default depth limit of the constructor (src/script.js line 49). -/
def defaultLimit : Nat := 50

/-- JavaScript `Array.prototype.slice(0, e)` with a possibly negative end
index: a negative `e` counts from the end of the array, and the result is
clamped to the array. -/
def jsSlice {α : Type} (l : List α) (e : Int) : List α :=
  if 0 ≤ e then l.take e.toNat else l.take ((l.length : Int) + e).toNat

namespace HistoryModule

variable {σ : Type}

/-- Embeds `enregistrerEtat` (src/script.js lines 65-83): truncate the
history after the cursor if the cursor is not at the end
(`this.history = this.history.slice(0, this.currentIndex + 1)`), push the
new snapshot, then enforce the depth bound (`this.history.shift()` drops
the oldest snapshot and leaves `currentIndex` unchanged; otherwise
`this.currentIndex++`). -/
def enregistrerEtat (m : HistoryModule σ) (s : σ) : HistoryModule σ :=
  let h1 := if m.currentIndex < (m.history.length : Int) - 1
            then jsSlice m.history (m.currentIndex + 1)
            else m.history
  let h2 := h1 ++ [s]
  if (h2.length : Int) > (m.limit : Int) then
    { m with history := h2.drop 1 }
  else
    { m with history := h2, currentIndex := m.currentIndex + 1 }

/-- Ledger effect of `annuler` (src/script.js lines 88-94): decrement the
cursor when `this.currentIndex > 0`, otherwise do nothing.  The
`loadState` call inside the guard only reads the ledger; the snapshot it
reads is `annulerLoads`. -/
def annuler (m : HistoryModule σ) : HistoryModule σ :=
  if 0 < m.currentIndex then { m with currentIndex := m.currentIndex - 1 } else m

/-- Snapshot read by `loadState` (src/script.js lines 110-117) during
`annuler`: `this.history[this.currentIndex]` after the decrement, or
`none` when the guard fails and `loadState` is never invoked. -/
def annulerLoads (m : HistoryModule σ) : Option σ :=
  if 0 < m.currentIndex then m.history.get? (m.currentIndex - 1).toNat else none

/-- Ledger effect of `retablir` (src/script.js lines 99-105): increment the
cursor when `this.currentIndex < this.history.length - 1`, otherwise do
nothing. -/
def retablir (m : HistoryModule σ) : HistoryModule σ :=
  if m.currentIndex < (m.history.length : Int) - 1 then
    { m with currentIndex := m.currentIndex + 1 }
  else m

/-- Snapshot read by `loadState` during `retablir`, or `none` when the
guard fails and `loadState` is never invoked. -/
def retablirLoads (m : HistoryModule σ) : Option σ :=
  if m.currentIndex < (m.history.length : Int) - 1 then
    m.history.get? (m.currentIndex + 1).toNat
  else none

/-- Undo affordance derived from `updateButtons` (src/script.js line 124):
the undo button is enabled iff `this.currentIndex <= 0` is false. -/
def canUndo (m : HistoryModule σ) : Bool :=
  decide (0 < m.currentIndex)

/-- Redo affordance derived from `updateButtons` (src/script.js line 127):
the redo button is enabled iff `this.currentIndex >= this.history.length - 1`
is false. -/
def canRedo (m : HistoryModule σ) : Bool :=
  decide (m.currentIndex < (m.history.length : Int) - 1)

/-- Folds a sequence of `enregistrerEtat` calls over the ledger. -/
def recordAll (l : List σ) (m : HistoryModule σ) : HistoryModule σ :=
  l.foldl enregistrerEtat m

/-- Iterates `annuler` a given number of times. -/
def annulerIter : Nat → HistoryModule σ → HistoryModule σ
  | 0, m => m
  | k + 1, m => annulerIter k (annuler m)

end HistoryModule

/-- A single user-visible ledger operation. -/
inductive Op (σ : Type) where
  | record (s : σ)
  | undo
  | redo
deriving DecidableEq

/-- Applies one operation to the ledger. -/
def step {σ : Type} (m : HistoryModule σ) : Op σ → HistoryModule σ
  | .record s => m.enregistrerEtat s
  | .undo => m.annuler
  | .redo => m.retablir

/-- Runs an operation sequence from a ledger state. -/
def run {σ : Type} (m : HistoryModule σ) (ops : List (Op σ)) : HistoryModule σ :=
  ops.foldl step m

/-!
Model of the canvas as seen by `reestablishAssociations`
(src/script.js lines 134-151), i.e. right after `loadFromJSON` replaced the
scene.  The side-channel attributes `measurementText` and
`lengthMeasurementText` hold either a live reference to another canvas
object (modelled by its position in the object list, which is what the
`find` on line 138 returns) or the inert plain record produced by
deserialization.  Object ids are `Option Nat`: `none` models the JavaScript
`undefined` that `text.id === obj.measurementText.id` compares with strict
equality, under which `undefined === undefined` is true — faithfully
mirrored by equality on `Option Nat`.
-/

/-- Value held by a side-channel attribute of a canvas object. -/
inductive LabelVal where
  | liveRef (target : Nat)
  | plainRec (id : Option Nat) (text : String)
deriving DecidableEq

/-- A canvas object: its fabric `type` string, its (optional) `id`, its
displayed `text`, and the two side-channel attributes. -/
structure Obj where
  otype : String
  id : Option Nat
  text : String
  measurementText : Option LabelVal
  lengthMeasurementText : Option LabelVal
deriving DecidableEq

/-- The canvas object list, in paint order (`canvas.getObjects()`). -/
abbrev Canvas := List Obj

/-- The `.id` read on line 138/144 (`obj.measurementText.id`): the id field
of a plain record, or the referenced object's id for a live reference
(property access through the pointer). -/
def refId (c : Canvas) : LabelVal → Option Nat
  | .liveRef j => (c.get? j).bind Obj.id
  | .plainRec i _ => i

/-- First index satisfying the predicate, starting the count at `i`:
models `Array.prototype.find` (which returns the first matching object;
we return its position so the match can be stored as a live reference). -/
def findIdxFrom (p : Obj → Bool) : Nat → Canvas → Option Nat
  | _, [] => none
  | i, o :: rest => if p o then some i else findIdxFrom p (i + 1) rest

/-- Position of the first canvas object whose `id` strictly equals the id
carried by the side-channel value (src/script.js lines 138 and 144). -/
def matchTarget (c : Canvas) (v : LabelVal) : Option Nat :=
  findIdxFrom (fun o => decide (o.id = refId c v)) 0 c

/-- Per-object body of `reestablishAssociations` (src/script.js lines
136-149): for `rect`/`circle`/`triangle` objects, each truthy side-channel
attribute is replaced by the first canvas object with a matching id; when
no object matches, the attribute is left untouched (the source has no
`else` branch).  Replacements only rewrite the two side-channel fields, and
lookups only read `id` fields, so mapping each object against the original
list is faithful to the in-place JavaScript loop. -/
def relinkObj (c : Canvas) (o : Obj) : Obj :=
  if o.otype = "rect" ∨ o.otype = "circle" ∨ o.otype = "triangle" then
    let o1 := match o.measurementText with
      | some v =>
        match matchTarget c v with
        | some j => { o with measurementText := some (.liveRef j) }
        | none => o
      | none => o
    match o1.lengthMeasurementText with
    | some v =>
      match matchTarget c v with
      | some j => { o1 with lengthMeasurementText := some (.liveRef j) }
      | none => o1
    | none => o1
  else o

/-- Embeds `reestablishAssociations` (src/script.js lines 134-151). -/
def reestablishAssociations (c : Canvas) : Canvas :=
  c.map (relinkObj c)

/-! Helper lemmas shared by the claim theorems. -/

namespace HistoryModule

variable {σ : Type}

lemma annuler_history (m : HistoryModule σ) : (annuler m).history = m.history := by
  unfold annuler; split <;> rfl

lemma retablir_history (m : HistoryModule σ) : (retablir m).history = m.history := by
  unfold retablir; split <;> rfl

lemma annuler_limit (m : HistoryModule σ) : (annuler m).limit = m.limit := by
  unfold annuler; split <;> rfl

lemma retablir_limit (m : HistoryModule σ) : (retablir m).limit = m.limit := by
  unfold retablir; split <;> rfl

lemma annuler_of_pos {m : HistoryModule σ} (h : 0 < m.currentIndex) :
    annuler m = { m with currentIndex := m.currentIndex - 1 } := by
  unfold annuler; rw [if_pos h]

lemma annuler_of_nonpos {m : HistoryModule σ} (h : ¬ 0 < m.currentIndex) :
    annuler m = m := by
  unfold annuler; rw [if_neg h]

lemma annulerIter_of_le (k : Nat) :
    ∀ m : HistoryModule σ, (k : Int) ≤ m.currentIndex →
      annulerIter k m = { m with currentIndex := m.currentIndex - k } := by
  induction k with
  | zero => intro m _; simp [annulerIter]
  | succ k ih =>
    intro m hk
    have hpos : 0 < m.currentIndex := by
      have : ((k : Int) + 1) ≤ m.currentIndex := by push_cast at hk ⊢; omega
      omega
    have h1 : annuler m = { m with currentIndex := m.currentIndex - 1 } :=
      annuler_of_pos hpos
    have h2 : (k : Int) ≤ m.currentIndex - 1 := by push_cast at hk; omega
    calc annulerIter (k + 1) m = annulerIter k (annuler m) := rfl
      _ = { m with currentIndex := m.currentIndex - 1 - k } := by
          rw [h1]; exact ih _ h2
      _ = { m with currentIndex := m.currentIndex - (k + 1 : Nat) } := by
          congr 1; push_cast; omega

end HistoryModule

lemma findIdxFrom_eq_none {p : Obj → Bool} :
    ∀ (l : Canvas) (i : Nat), (∀ x ∈ l, p x = false) → findIdxFrom p i l = none := by
  intro l
  induction l with
  | nil => intro i _; rfl
  | cons o rest ih =>
    intro i h
    have ho : p o = false := h o (List.mem_cons_self o rest)
    simp only [findIdxFrom, ho, if_false, Bool.false_eq_true]
    exact ih (i + 1) fun x hx => h x (List.mem_cons_of_mem o hx)

namespace HistoryModule

variable {σ : Type}

lemma enregistrer_no_trunc {m : HistoryModule σ} (s : σ)
    (h : ¬ m.currentIndex < (m.history.length : Int) - 1)
    (hlen : m.history.length + 1 ≤ m.limit) :
    m.enregistrerEtat s =
      { m with history := m.history ++ [s], currentIndex := m.currentIndex + 1 } := by
  have hc : ¬ (((m.history ++ [s]).length : Int) > (m.limit : Int)) := by
    simp only [List.length_append, List.length_cons, List.length_nil]
    push_cast
    omega
  simp only [enregistrerEtat]
  rw [if_neg h, if_neg hc]

lemma enregistrer_trunc {m : HistoryModule σ} (s : σ)
    (h : m.currentIndex < (m.history.length : Int) - 1) (h0 : 0 ≤ m.currentIndex)
    (hlen : (m.currentIndex + 1).toNat + 1 ≤ m.limit) :
    m.enregistrerEtat s =
      { m with history := m.history.take (m.currentIndex + 1).toNat ++ [s],
               currentIndex := m.currentIndex + 1 } := by
  have hs : jsSlice m.history (m.currentIndex + 1) =
      m.history.take (m.currentIndex + 1).toNat := by
    simp only [jsSlice]
    rw [if_pos (by omega)]
  have hc : ¬ (((m.history.take (m.currentIndex + 1).toNat ++ [s]).length : Int) >
      (m.limit : Int)) := by
    simp only [List.length_append, List.length_take, List.length_cons, List.length_nil]
    have htn : (m.currentIndex + 1).toNat ≤ m.history.length := by omega
    push_cast
    omega
  simp only [enregistrerEtat]
  rw [if_pos h, hs, if_neg hc]

lemma enregistrer_tail_shift {m : HistoryModule σ} (s : σ)
    (h : ¬ m.currentIndex < (m.history.length : Int) - 1)
    (hlen : m.limit ≤ m.history.length) :
    m.enregistrerEtat s = { m with history := (m.history ++ [s]).drop 1 } := by
  have hc : ((m.history ++ [s]).length : Int) > (m.limit : Int) := by
    simp only [List.length_append, List.length_cons, List.length_nil]
    push_cast
    omega
  simp only [enregistrerEtat]
  rw [if_neg h, if_pos hc]

/-- Main characterization of a run of consecutive `enregistrerEtat` calls
starting from a state whose cursor sits at the tail of the history: the
resulting history is the suffix of the accumulated snapshot list that fits
in the depth limit, and the cursor stays at the tail. -/
lemma recordAll_from_tail (limit : Nat) :
    ∀ (l h : List σ), h.length ≤ limit →
      recordAll l ⟨h, (h.length : Int) - 1, limit⟩ =
        ⟨(h ++ l).drop (h.length + l.length - limit),
         ((min (h.length + l.length) limit : Nat) : Int) - 1, limit⟩ := by
  intro l
  induction l with
  | nil =>
    intro h hle
    simp [recordAll, Nat.sub_eq_zero_of_le hle, min_eq_left hle]
  | cons s t ih =>
    intro h hle
    have hfold : recordAll (s :: t) (⟨h, (h.length : Int) - 1, limit⟩ : HistoryModule σ)
        = recordAll t ((⟨h, (h.length : Int) - 1, limit⟩ : HistoryModule σ).enregistrerEtat s) := by
      simp only [recordAll, List.foldl_cons]
    rcases Nat.lt_or_ge h.length limit with hlt | hge
    · have he : (⟨h, (h.length : Int) - 1, limit⟩ : HistoryModule σ).enregistrerEtat s
          = ⟨h ++ [s], ((h ++ [s]).length : Int) - 1, limit⟩ := by
        rw [enregistrer_no_trunc s (by simp) (by simp; omega)]
        congr 1
        simp only [List.length_append, List.length_cons, List.length_nil]
        push_cast
        omega
      rw [hfold, he, ih (h ++ [s]) (by simp; omega)]
      congr 1
      · rw [List.append_assoc, List.singleton_append]
        congr 1
        simp only [List.length_append, List.length_cons, List.length_nil]
        omega
      · congr 2
        simp only [List.length_append, List.length_cons, List.length_nil]
        omega
    · have heq : h.length = limit := le_antisymm hle hge
      have he : (⟨h, (h.length : Int) - 1, limit⟩ : HistoryModule σ).enregistrerEtat s
          = ⟨(h ++ [s]).drop 1, (((h ++ [s]).drop 1).length : Int) - 1, limit⟩ := by
        rw [enregistrer_tail_shift s (by simp) (by simpa using hge)]
        congr 1
        simp only [List.length_drop, List.length_append, List.length_cons, List.length_nil]
        push_cast
        omega
      have hlen1 : ((h ++ [s]).drop 1).length = limit := by
        simp only [List.length_drop, List.length_append, List.length_cons, List.length_nil]
        omega
      rw [hfold, he, ih ((h ++ [s]).drop 1) (by rw [hlen1])]
      congr 1
      · have hstep : (h ++ [s]).drop 1 ++ t = ((h ++ [s]) ++ t).drop 1 :=
          (List.drop_append_of_le_length (by simp)).symm
        rw [hstep, List.drop_drop, List.append_assoc, List.singleton_append]
        congr 1
        simp only [List.length_drop, List.length_append, List.length_cons, List.length_nil]
        omega
      · congr 2
        rw [hlen1]
        simp only [List.length_cons]
        omega

end HistoryModule

/-- Reachability invariant of the ledger: either it is still empty with the
constructor cursor -1, or the cursor is a valid index into the history. -/
def LedgerInv {σ : Type} (m : HistoryModule σ) : Prop :=
  (m.history.length = 0 ∧ m.currentIndex = -1) ∨
  (0 < m.history.length ∧ 0 ≤ m.currentIndex ∧
    m.currentIndex < (m.history.length : Int))

lemma ledgerInv_init (σ : Type) (limit : Nat) : LedgerInv (HistoryModule.init σ limit) :=
  Or.inl ⟨rfl, rfl⟩

lemma ledgerInv_enregistrer {σ : Type} {m : HistoryModule σ} (s : σ)
    (h : LedgerInv m) : LedgerInv (m.enregistrerEtat s) := by
  rcases h with ⟨h0, hidx⟩ | ⟨hpos, h0, hlt⟩
  · have hnil : m.history = [] := List.length_eq_zero.mp h0
    simp only [HistoryModule.enregistrerEtat, jsSlice, hnil, hidx, LedgerInv]
    split_ifs <;>
      simp_all [List.length_append, List.length_take, List.length_drop]
  · simp only [HistoryModule.enregistrerEtat, jsSlice, LedgerInv]
    split_ifs <;>
      simp only [List.length_append, List.length_take, List.length_drop,
        List.length_cons, List.length_nil] <;>
      omega

lemma ledgerInv_annuler {σ : Type} {m : HistoryModule σ}
    (h : LedgerInv m) : LedgerInv m.annuler := by
  rcases h with ⟨h0, hidx⟩ | ⟨hpos, h0, hlt⟩ <;>
    · simp only [HistoryModule.annuler, LedgerInv]
      split_ifs <;> simp_all <;> omega

lemma ledgerInv_retablir {σ : Type} {m : HistoryModule σ}
    (h : LedgerInv m) : LedgerInv m.retablir := by
  rcases h with ⟨h0, hidx⟩ | ⟨hpos, h0, hlt⟩ <;>
    · simp only [HistoryModule.retablir, LedgerInv]
      split_ifs <;> simp_all <;> omega

lemma ledgerInv_step {σ : Type} {m : HistoryModule σ} (op : Op σ)
    (h : LedgerInv m) : LedgerInv (step m op) := by
  cases op with
  | record s => exact ledgerInv_enregistrer s h
  | undo => exact ledgerInv_annuler h
  | redo => exact ledgerInv_retablir h

lemma ledgerInv_run {σ : Type} (ops : List (Op σ)) :
    ∀ m : HistoryModule σ, LedgerInv m → LedgerInv (run m ops) := by
  induction ops with
  | nil => intro m h; exact h
  | cons op rest ih =>
    intro m h
    exact ih (step m op) (ledgerInv_step op h)

/-! Claim theorems. -/

open HistoryModule

/-- C6: calling `undo()` when the cursor is 0, or `redo()` when the cursor
equals `length - 1`, leaves the ledger state (snapshot sequence contents,
cursor, and limit) entirely unchanged, and `loadState` is not invoked, so
the Scene is untouched as well. -/
theorem boundary_ops_are_noops {σ : Type} (m : HistoryModule σ) :
    (m.currentIndex = 0 → m.annuler = m ∧ m.annulerLoads = none) ∧
    (m.currentIndex = (m.history.length : Int) - 1 →
      m.retablir = m ∧ m.retablirLoads = none) := by
  constructor
  · intro h
    constructor
    · unfold HistoryModule.annuler; rw [if_neg (by omega)]
    · unfold HistoryModule.annulerLoads; rw [if_neg (by omega)]
  · intro h
    constructor
    · unfold HistoryModule.retablir; rw [if_neg (by omega)]
    · unfold HistoryModule.retablirLoads; rw [if_neg (by omega)]

/-- Witness for C6 at a concrete one-snapshot ledger, where the cursor is
both 0 and `length - 1`. -/
theorem boundary_ops_are_noops_witness :
    ((⟨[7], 0, 50⟩ : HistoryModule Nat).annuler = ⟨[7], 0, 50⟩ ∧
      (⟨[7], 0, 50⟩ : HistoryModule Nat).annulerLoads = none) ∧
    ((⟨[7], 0, 50⟩ : HistoryModule Nat).retablir = ⟨[7], 0, 50⟩ ∧
      (⟨[7], 0, 50⟩ : HistoryModule Nat).retablirLoads = none) :=
  ⟨(boundary_ops_are_noops ⟨[7], 0, 50⟩).1 (by decide),
   (boundary_ops_are_noops ⟨[7], 0, 50⟩).2 (by decide)⟩

/-- C1: after more than `limit` record() calls (limit ≥ 1, default 50) with
no intervening undo/redo, the ledger holds exactly the last `limit`
snapshots, the cursor sits at the newest index `limit - 1`, and undo()
succeeds (cursor decrements, button enabled) on each of the first
`limit - 1` iterates, after which the cursor is at the oldest retained
state (index 0) and a further undo() is a no-op. -/
theorem ledger_depth_bound {σ : Type} (limit : Nat) (hlim : 1 ≤ limit)
    (l : List σ) (hN : limit < l.length) :
    (recordAll l (HistoryModule.init σ limit)).history = l.drop (l.length - limit) ∧
    (recordAll l (HistoryModule.init σ limit)).history.length = limit ∧
    (recordAll l (HistoryModule.init σ limit)).currentIndex = (limit : Int) - 1 ∧
    ((List.range (limit - 1)).all fun k =>
      (annulerIter k (recordAll l (HistoryModule.init σ limit))).canUndo) = true ∧
    (annulerIter (limit - 1) (recordAll l (HistoryModule.init σ limit))).canUndo = false ∧
    (annulerIter (limit - 1) (recordAll l (HistoryModule.init σ limit))).currentIndex = 0 ∧
    (annulerIter (limit - 1) (recordAll l (HistoryModule.init σ limit))).annuler
      = annulerIter (limit - 1) (recordAll l (HistoryModule.init σ limit)) := by
  have hinit : HistoryModule.init σ limit
      = ⟨([] : List σ), ((([] : List σ).length : Int)) - 1, limit⟩ := by
    simp [HistoryModule.init]
  have master := recordAll_from_tail limit l ([] : List σ) (by simp)
  have hm : recordAll l (HistoryModule.init σ limit)
      = ⟨l.drop (l.length - limit), (limit : Int) - 1, limit⟩ := by
    rw [hinit, master]
    congr 2
    · simp
    · simp only [List.length_nil, Nat.zero_add]
      omega
  have hiter : ∀ k : Nat, k ≤ limit - 1 →
      annulerIter k (recordAll l (HistoryModule.init σ limit))
        = ⟨l.drop (l.length - limit), (limit : Int) - 1 - k, limit⟩ := by
    intro k hk
    rw [hm, annulerIter_of_le k _ (by simp; omega)]
  refine ⟨by rw [hm], ?_, by rw [hm], ?_, ?_, ?_, ?_⟩
  · rw [hm]
    simp only [List.length_drop]
    omega
  · rw [List.all_eq_true]
    intro k hk
    have hklt : k < limit - 1 := List.mem_range.mp hk
    rw [hiter k (by omega)]
    simp only [canUndo, decide_eq_true_eq]
    omega
  · rw [hiter (limit - 1) le_rfl]
    simp only [canUndo, decide_eq_false_iff_not]
    omega
  · rw [hiter (limit - 1) le_rfl]
    show (limit : Int) - 1 - ((limit - 1 : Nat) : Int) = 0
    omega
  · rw [hiter (limit - 1) le_rfl]
    refine annuler_of_nonpos ?_
    show ¬ (0 : Int) < (limit : Int) - 1 - ((limit - 1 : Nat) : Int)
    omega

/-- Witness for C1 with limit 2 and three recorded snapshots. -/
theorem ledger_depth_bound_witness :
    (1 ≤ 2) ∧ (2 < ([10, 20, 30] : List Nat).length) ∧
    ((recordAll [10, 20, 30] (HistoryModule.init Nat 2)).history
        = [10, 20, 30].drop (([10, 20, 30] : List Nat).length - 2) ∧
      (recordAll [10, 20, 30] (HistoryModule.init Nat 2)).history.length = 2 ∧
      (recordAll [10, 20, 30] (HistoryModule.init Nat 2)).currentIndex = (2 : Int) - 1 ∧
      ((List.range (2 - 1)).all fun k =>
        (annulerIter k (recordAll [10, 20, 30] (HistoryModule.init Nat 2))).canUndo) = true ∧
      (annulerIter (2 - 1) (recordAll [10, 20, 30] (HistoryModule.init Nat 2))).canUndo
        = false ∧
      (annulerIter (2 - 1) (recordAll [10, 20, 30] (HistoryModule.init Nat 2))).currentIndex
        = 0 ∧
      (annulerIter (2 - 1) (recordAll [10, 20, 30] (HistoryModule.init Nat 2))).annuler
        = annulerIter (2 - 1) (recordAll [10, 20, 30] (HistoryModule.init Nat 2))) :=
  ⟨by decide, by decide, ledger_depth_bound 2 (by decide) [10, 20, 30] (by decide)⟩

/-- C2 counterexample: the claim quantifies over every ledger, but with a
depth limit of 2 the sequence record 0, record 1, record 2, undo, undo,
record 3 leaves the ledger as [1, 3]: the third record evicted snapshot 0
from the front and pinned the cursor at 1, so the two undos only stepped
back to index 0 (snapshot 1, recorded as B), and the final record pruned
from there — leaving B in the ledger, contrary to the claim. -/
theorem redo_branch_pruning_counterexample :
    (run (HistoryModule.init Nat 2)
        [Op.record 0, Op.record 1, Op.record 2, Op.undo, Op.undo, Op.record 3]).history
      = [1, 3] ∧
    1 ∈ (run (HistoryModule.init Nat 2)
        [Op.record 0, Op.record 1, Op.record 2, Op.undo, Op.undo, Op.record 3]).history := by
  decide

/-- C2 amended: for every ledger whose depth limit is at least 3 (the
application default is 50), after record(A), record(B), record(C), undo(),
undo(), record(D) the ledger holds exactly [A, D] with the cursor at the
newest index, so B and C (when distinct from A and D) are no longer in the
ledger, a subsequent redo() is a no-op, and canRedo() reports false. -/
theorem redo_branch_pruning {σ : Type} (limit : Nat) (hlim : 3 ≤ limit) (A B C D : σ) :
    run (HistoryModule.init σ limit)
        [Op.record A, Op.record B, Op.record C, Op.undo, Op.undo, Op.record D]
      = ⟨[A, D], 1, limit⟩ ∧
    (¬ B = A → ¬ B = D → B ∉ ([A, D] : List σ)) ∧
    (¬ C = A → ¬ C = D → C ∉ ([A, D] : List σ)) ∧
    (⟨[A, D], 1, limit⟩ : HistoryModule σ).retablir = ⟨[A, D], 1, limit⟩ ∧
    (⟨[A, D], 1, limit⟩ : HistoryModule σ).retablirLoads = none ∧
    (⟨[A, D], 1, limit⟩ : HistoryModule σ).canRedo = false := by
  have e1 : (HistoryModule.init σ limit).enregistrerEtat A = ⟨[A], 0, limit⟩ := by
    rw [enregistrer_no_trunc A (by simp [HistoryModule.init])
      (by simp [HistoryModule.init]; omega)]
    simp [HistoryModule.init]
  have e2 : (⟨[A], 0, limit⟩ : HistoryModule σ).enregistrerEtat B = ⟨[A, B], 1, limit⟩ := by
    rw [enregistrer_no_trunc B (by simp) (by simp; omega)]; rfl
  have e3 : (⟨[A, B], 1, limit⟩ : HistoryModule σ).enregistrerEtat C
      = ⟨[A, B, C], 2, limit⟩ := by
    rw [enregistrer_no_trunc C (by simp) (by simp; omega)]; rfl
  have u1 : (⟨[A, B, C], 2, limit⟩ : HistoryModule σ).annuler = ⟨[A, B, C], 1, limit⟩ := by
    rw [annuler_of_pos (by norm_num)]; rfl
  have u2 : (⟨[A, B, C], 1, limit⟩ : HistoryModule σ).annuler = ⟨[A, B, C], 0, limit⟩ := by
    rw [annuler_of_pos (by norm_num)]; rfl
  have e4 : (⟨[A, B, C], 0, limit⟩ : HistoryModule σ).enregistrerEtat D
      = ⟨[A, D], 1, limit⟩ := by
    rw [enregistrer_trunc D (by simp) (by norm_num) (by simp; omega)]
    simp
  refine ⟨?_, ?_, ?_, ?_, ?_, ?_⟩
  · simp only [run, List.foldl, step, e1, e2, e3, u1, u2, e4]
  · intro h1 h2
    simp [h1, h2]
  · intro h1 h2
    simp [h1, h2]
  · unfold HistoryModule.retablir
    rw [if_neg (by simp)]
  · unfold HistoryModule.retablirLoads
    rw [if_neg (by simp)]
  · simp [canRedo]

/-- Witness for C2 amended at the default-shaped limit 3 and four distinct
snapshots. -/
theorem redo_branch_pruning_witness :
    (3 ≤ 3) ∧
    (run (HistoryModule.init Nat 3)
        [Op.record 0, Op.record 1, Op.record 2, Op.undo, Op.undo, Op.record 3]
      = ⟨[0, 3], 1, 3⟩ ∧
    (¬ (1 : Nat) = 0 → ¬ (1 : Nat) = 3 → (1 : Nat) ∉ ([0, 3] : List Nat)) ∧
    (¬ (2 : Nat) = 0 → ¬ (2 : Nat) = 3 → (2 : Nat) ∉ ([0, 3] : List Nat)) ∧
    (⟨[0, 3], 1, 3⟩ : HistoryModule Nat).retablir = ⟨[0, 3], 1, 3⟩ ∧
    (⟨[0, 3], 1, 3⟩ : HistoryModule Nat).retablirLoads = none ∧
    (⟨[0, 3], 1, 3⟩ : HistoryModule Nat).canRedo = false) :=
  ⟨by decide, redo_branch_pruning 3 (by decide) 0 1 2 3⟩

/-- C5: for every ledger state reachable from the freshly constructed
ledger by any sequence of record/undo/redo, whenever the history is
non-empty the cursor satisfies `0 ≤ cursor < length`; moreover the cursor
is at the newest index exactly when redo is unavailable, and at 0 exactly
when undo is unavailable (the availability predicates being the ones
`updateButtons` derives the button states from). -/
theorem ledger_cursor_invariant {σ : Type} (limit : Nat) (ops : List (Op σ))
    (h : (run (HistoryModule.init σ limit) ops).history ≠ []) :
    0 ≤ (run (HistoryModule.init σ limit) ops).currentIndex ∧
    (run (HistoryModule.init σ limit) ops).currentIndex
      < ((run (HistoryModule.init σ limit) ops).history.length : Int) ∧
    ((run (HistoryModule.init σ limit) ops).currentIndex
        = ((run (HistoryModule.init σ limit) ops).history.length : Int) - 1
      ↔ (run (HistoryModule.init σ limit) ops).canRedo = false) ∧
    ((run (HistoryModule.init σ limit) ops).currentIndex = 0
      ↔ (run (HistoryModule.init σ limit) ops).canUndo = false) := by
  have hinv := ledgerInv_run ops (HistoryModule.init σ limit) (ledgerInv_init σ limit)
  rcases hinv with ⟨h0, _⟩ | ⟨hpos, h0, hlt⟩
  · exact absurd (List.length_eq_zero.mp h0) h
  · refine ⟨h0, hlt, ?_, ?_⟩
    · rw [canRedo, decide_eq_false_iff_not]
      constructor <;> intro hx <;> omega
    · rw [canUndo, decide_eq_false_iff_not]
      constructor <;> intro hx <;> omega

/-- Witness for C5 on the one-operation run `[record 5]` with limit 50. -/
theorem ledger_cursor_invariant_witness :
    ((run (HistoryModule.init Nat 50) [Op.record 5]).history ≠ [] ∧
      (0 ≤ (run (HistoryModule.init Nat 50) [Op.record 5]).currentIndex ∧
      (run (HistoryModule.init Nat 50) [Op.record 5]).currentIndex
        < ((run (HistoryModule.init Nat 50) [Op.record 5]).history.length : Int) ∧
      ((run (HistoryModule.init Nat 50) [Op.record 5]).currentIndex
          = ((run (HistoryModule.init Nat 50) [Op.record 5]).history.length : Int) - 1
        ↔ (run (HistoryModule.init Nat 50) [Op.record 5]).canRedo = false) ∧
      ((run (HistoryModule.init Nat 50) [Op.record 5]).currentIndex = 0
        ↔ (run (HistoryModule.init Nat 50) [Op.record 5]).canUndo = false))) :=
  ⟨by decide, ledger_cursor_invariant 50 [Op.record 5] (by decide)⟩

/-- Canvas used by the C3 counterexample: one rectangle whose deserialized
`measurementText` record references label id 99, while no object in the
snapshot carries id 99. -/
def c3canvas : Canvas :=
  [⟨"rect", none, "", some (.plainRec (some 99) "12"), none⟩]

/-- C3 counterexample: on `c3canvas` the referenced label (id 99) is absent
from the snapshot, so the claim asserts the rebuilder leaves the
rectangle's `measurementText` unset (none).  The code instead leaves the
attribute holding the stale deserialized record: the source `if` on line
139 has no `else` branch that would clear it. -/
theorem rebuild_dangling_counterexample :
    ((reestablishAssociations c3canvas).get? 0).bind Obj.measurementText
      = some (.plainRec (some 99) "12") ∧
    ((reestablishAssociations c3canvas).get? 0).bind Obj.measurementText ≠ none ∧
    c3canvas.all (fun o => decide (¬ o.id = some 99)) = true := by
  decide

/-- C3 amended: for every post-load canvas and every object carrying a
side-channel value whose referenced identifier matches no object in the
canvas, the Association Rebuilder terminates without error (the embedding
is a total function, mirroring the guarded property accesses on lines
137-148) and leaves that attribute exactly as deserialization produced it
— still set to the stale value, not cleared to null/absent. -/
lemma relinkObj_measurement_of_nomatch {c : Canvas} {o : Obj} {v : LabelVal}
    (hv : o.measurementText = some v) (hmt : matchTarget c v = none) :
    (relinkObj c o).measurementText = some v := by
  unfold relinkObj
  split
  · simp only [hv, hmt]
    rcases hl : o.lengthMeasurementText with _ | w
    · simp [hl, hv]
    · rcases hw : matchTarget c w with _ | j <;> simp [hl, hw, hv]
  · exact hv

lemma relinkObj_length_of_nomatch {c : Canvas} {o : Obj} {v : LabelVal}
    (hv : o.lengthMeasurementText = some v) (hmt : matchTarget c v = none) :
    (relinkObj c o).lengthMeasurementText = some v := by
  unfold relinkObj
  split
  · rcases hm : o.measurementText with _ | w
    · simp only [hm, hv, hmt]
    · rcases hw : matchTarget c w with _ | j
      · simp only [hm, hw, hv, hmt]
      · simp only [hm, hw, hv, hmt]
  · exact hv

theorem rebuild_dangling_leaves_value {c : Canvas} {i : Nat} {o : Obj}
    (ho : c.get? i = some o) :
    (∀ v, o.measurementText = some v →
      (∀ x ∈ c, ¬ x.id = refId c v) →
      ((reestablishAssociations c).get? i).bind Obj.measurementText = some v) ∧
    (∀ v, o.lengthMeasurementText = some v →
      (∀ x ∈ c, ¬ x.id = refId c v) →
      ((reestablishAssociations c).get? i).bind Obj.lengthMeasurementText = some v) := by
  have hmap : (reestablishAssociations c).get? i = some (relinkObj c o) := by
    rw [List.get?_eq_getElem?] at ho ⊢
    rw [reestablishAssociations, List.getElem?_map, ho]
    rfl
  rw [hmap]
  constructor
  · intro v hv hnone
    have hmt : matchTarget c v = none :=
      findIdxFrom_eq_none c 0 fun x hx => by simp [hnone x hx]
    exact relinkObj_measurement_of_nomatch hv hmt
  · intro v hv hnone
    have hmt : matchTarget c v = none :=
      findIdxFrom_eq_none c 0 fun x hx => by simp [hnone x hx]
    exact relinkObj_length_of_nomatch hv hmt

/-- Witness for C3 amended on the concrete dangling canvas. -/
theorem rebuild_dangling_leaves_value_witness :
    (c3canvas.get? 0 = some ⟨"rect", none, "", some (.plainRec (some 99) "12"), none⟩) ∧
    (∀ v, (⟨"rect", none, "", some (.plainRec (some 99) "12"), none⟩ : Obj).measurementText
        = some v →
      (∀ x ∈ c3canvas, ¬ x.id = refId c3canvas v) →
      ((reestablishAssociations c3canvas).get? 0).bind Obj.measurementText = some v) ∧
    (∀ v, (⟨"rect", none, "", some (.plainRec (some 99) "12"), none⟩ : Obj).lengthMeasurementText
        = some v →
      (∀ x ∈ c3canvas, ¬ x.id = refId c3canvas v) →
      ((reestablishAssociations c3canvas).get? 0).bind Obj.lengthMeasurementText = some v) :=
  ⟨by decide, (rebuild_dangling_leaves_value (by decide)).1,
    (rebuild_dangling_leaves_value (by decide)).2⟩

/-- Post-load canvas for C7: a rectangle and its measurement label (text
"12 cm"), in that paint order, as `loadFromJSON` rebuilds them.  src/
script.js never assigns an `id` to any object and omits `id` from the
`toJSON` allow-list on line 72, so after deserialization every object's
`id` — and the `id` carried by the rectangle's deserialized
`measurementText` record — is `undefined` (modelled as `none`). -/
def c7canvas : Canvas :=
  [⟨"rect", none, "", some (.plainRec none "12 cm"), none⟩,
   ⟨"text", none, "12 cm", none, none⟩]

/-- C7 (code bug): on `c7canvas`, the rebuilder's lookup
`text.id === obj.measurementText.id` (line 138) compares
`undefined === undefined`, which is true at the very first canvas object,
so round-tripping relinks the rectangle's `measurementText` to the
rectangle itself (index 0, type "rect") — not to a TextLabel carrying the
original displayed text, as the claim requires. -/
theorem rebuild_mislinks_measurement :
    ((reestablishAssociations c7canvas).get? 0).bind Obj.measurementText
      = some (.liveRef 0) ∧
    ((reestablishAssociations c7canvas).get? 0).map Obj.otype = some "rect" ∧
    ¬ ((reestablishAssociations c7canvas).get? 0).map Obj.otype = some "text" := by
  decide

/-- C9: `undo()` and `redo()` never modify the stored snapshot sequence
(nor the depth limit); only the cursor may change.  `loadState` inside them
only reads `this.history[this.currentIndex]`. -/
theorem undo_redo_preserve_history {σ : Type} (m : HistoryModule σ) :
    m.annuler.history = m.history ∧ m.retablir.history = m.history ∧
    m.annuler.limit = m.limit ∧ m.retablir.limit = m.limit :=
  ⟨annuler_history m, retablir_history m, annuler_limit m, retablir_limit m⟩

/-- C10: on a freshly constructed ledger (empty history, cursor -1) both
`undo()` and `redo()` are safe no-ops: the guards fail, `loadState` is
never invoked (so no index of the empty history array is read and the
Scene is unchanged), and the ledger state is unchanged. -/
theorem fresh_ledger_safe (σ : Type) (limit : Nat) :
    (HistoryModule.init σ limit).annuler = HistoryModule.init σ limit ∧
    (HistoryModule.init σ limit).annulerLoads = none ∧
    (HistoryModule.init σ limit).retablir = HistoryModule.init σ limit ∧
    (HistoryModule.init σ limit).retablirLoads = none := by
  refine ⟨?_, ?_, ?_, ?_⟩ <;>
    simp [HistoryModule.annuler, HistoryModule.annulerLoads, HistoryModule.retablir,
      HistoryModule.retablirLoads, HistoryModule.init]

end Canevas
